import Mathlib

/-!
Shallow embedding of the etcd-fuzzing engine (weng-chenghui/etcd-fuzzing):
the schedule/event data model, the TLC client, the coverage guiders, the
mutation-budget loop, the per-iteration replay loop with its per-pair
message queues, the seeding routine, the reseed guard, and the CLI entry
point.  Each definition is translated from the Go code quoted in
src/main.go and src/docs/*.md; where a routine of the repository is not
reproduced in those files, its model is marked "Modelled from the spec".
-/

namespace EtcdFuzz

/-- One recorded event (Go struct `Event` with `Name`, `Node`, `Reset`,
`Params`); parameter values are modelled as strings. -/
structure Event where
  name : String
  node : Nat
  reset : Bool
  params : List (String × String)
deriving DecidableEq, Repr

/-- The sentinel appended by `TLCClient.SendTrace`: `&Event{Reset: true}`. -/
def resetEvent : Event := ⟨"", 0, true, []⟩

/-- A TLC state, pair of representation and opaque key (Go struct `State`). -/
structure State where
  repr : String
  key : String
deriving DecidableEq, Repr

/-- The parsed body of the TLC server's reply (Go struct `TLCResponse`). -/
structure TLCResponse where
  states : List String
  keys : List String
deriving DecidableEq, Repr

/-- `TLCClient.SendTrace` (tlc_client.go, quoted in docs/event_flow.md):
appends the reset sentinel to the trace in place, posts it, and zips the
reply's `States` with `Keys`.  The HTTP exchange is external, so the reply
is an input; `result[i] = State{Repr: States[i], Key: Keys[i]}` indexes
`Keys` at every position of `States`, which in Go panics when `Keys` is
shorter — that failure is `none`. -/
def SendTrace (trace : List Event) (resp : TLCResponse) :
    List Event × Option (List State) :=
  (trace ++ [resetEvent],
   if resp.states.length ≤ resp.keys.length then
     some (List.zipWith (fun s k => State.mk s k) resp.states resp.keys)
   else none)

/-- The seen-key map of `TLCStateGuider` (Go `statesMap map[string]bool`),
modelled as the list of keys in insertion order. -/
structure TLCStateGuider where
  statesMap : List String
deriving DecidableEq, Repr

/-- The loop body of `TLCStateGuider.Check` (guider.go, quoted in
docs/event_flow.md): walk the returned TLC states, counting and inserting
each key not already present. -/
def checkStates : List State → List String → Nat × List String
  | [], seen => (0, seen)
  | s :: rest, seen =>
    if seen.contains s.key then checkStates rest seen
    else
      let r := checkStates rest (seen ++ [s.key])
      (r.1 + 1, r.2)

/-- `TLCStateGuider.Check` (guider.go, quoted in docs/event_flow.md):
send the event trace to TLC (appending the reset sentinel in place), count
keys not previously seen, and return
`(numNewStates, numNewStates / max(len(statesMap), 1))` together with the
updated guider and the mutated event trace.  A transport failure is
treated as zero states.  The float64 quotient is modelled in `Rat`. -/
def TLCStateGuider.Check (g : TLCStateGuider) (eventTrace : List Event)
    (resp : TLCResponse) : (Nat × Rat) × TLCStateGuider × List Event :=
  let sent := SendTrace eventTrace resp
  let tlcStates := sent.2.getD []
  let r := checkStates tlcStates g.statesMap
  let curStates := r.2.length
  ((r.1, (r.1 : Rat) / ((max curStates 1 : Nat) : Rat)), ⟨r.2⟩, sent.1)

/-- `TraceCoverageGuider` (guider.go): the shared TLC-state guider plus the
map of seen event-trace hashes, modelled as the hash list in insertion
order. -/
structure TraceCoverageGuider where
  tlcGuider : TLCStateGuider
  traces : List String
deriving DecidableEq, Repr

/-- `TraceCoverageGuider.Check` (guider.go, quoted in docs/event_flow.md):
run the TLC-state check for its shared state, hash the (reset-extended)
event trace with `newEventTrace(events).Hash()` — the hash function is not
reproduced in the sources, so it is a parameter — and report 1 when the
hash is new, with quotient `new / len(traces)` measured after the
insertion. -/
def TraceCoverageGuider.Check (hash : List Event → String)
    (g : TraceCoverageGuider) (events : List Event) (resp : TLCResponse) :
    (Nat × Rat) × TraceCoverageGuider × List Event :=
  let inner := TLCStateGuider.Check g.tlcGuider events resp
  let key := hash inner.2.2
  let upd : Nat × List String :=
    if g.traces.contains key then (0, g.traces) else (1, g.traces ++ [key])
  ((upd.1, (upd.1 : Rat) / ((upd.2.length : Nat) : Rat)), ⟨inner.2.1, upd.2⟩, inner.2.2)

/-- The discriminator of a scheduling choice (Go `ChoiceType`). -/
inductive ChoiceType
  | Node
  | RandomBoolean
  | RandomInteger
  | StartNode
  | StopNode
  | ClientRequest
deriving DecidableEq, Repr

/-- One scheduling choice (Go struct `SchedulingChoice` as listed in
docs/execution_flow.md); the numeric fields are modelled as naturals
except the pinned integer draw. -/
structure SchedulingChoice where
  type : ChoiceType
  choiceFrom : Nat
  choiceTo : Nat
  maxMessages : Nat
  node : Nat
  step : Nat
  booleanChoice : Bool
  integerChoice : Int
  request : Nat
deriving DecidableEq, Repr

/-- Modelled from the spec: `copyTrace(t, defaultCopyFilter())` (fuzzer.go,
not reproduced in the sources) makes a deep copy of a schedule before it
is pushed onto the corpus; with value semantics a deep copy is the value
itself. -/
def copyTrace (t : List SchedulingChoice) : List SchedulingChoice := t

/-- The mutation stage of one `Fuzzer.Run` iteration (fuzzer.go, quoted in
docs/event_flow.md): when `numNewStates > 0`, loop
`numMutations = numNewStates * MutPerTrace` times, calling
`Mutator.Mutate` each time and pushing a copy of each successful result
onto the corpus queue.  The mutator may be stateful in its own PRNG, so
the result of its j-th call is an input (`none` is `ok = false`).  Returns
the queue after the stage and the number of `Mutate` calls made. -/
def mutationStage (numNewStates mutPerTrace : Nat)
    (mutate : Nat → Option (List SchedulingChoice))
    (queue : List (List SchedulingChoice)) :
    List (List SchedulingChoice) × Nat :=
  if 0 < numNewStates then
    let numMutations := numNewStates * mutPerTrace
    (((List.range numMutations).foldl (fun q j =>
        match mutate j with
        | some nt => q ++ [copyTrace nt]
        | none => q) queue), numMutations)
  else (queue, 0)

/-- Go's integer remainder, which panics when the divisor is zero. -/
def goMod (a b : Nat) : Option Nat :=
  if b = 0 then none else some (a % b)

/-- Modelled from the spec: the main loop's periodic reseed test
(fuzzer.go, not reproduced in the sources) — "Every `reseedFrequency`
iterations, re-seed"; the comment at src/main.go:63 notes that leaving
`ReseedFrequency` unset "throws the div zero error", so the test divides
the iteration counter by `reseedFrequency`. -/
def reseedDecision (i reseedFrequency : Nat) : Option Bool :=
  (goMod i reseedFrequency).map (fun r => r == 0)

/-- A Raft protobuf message (`pb.Message`): the fields the engine reads.
Entry data is modelled as one string. -/
structure Message where
  msgFrom : Nat
  msgTo : Nat
  mtype : String
  term : Nat
  data : String
deriving DecidableEq, Repr

/-- The Raft environment (raft.go) is an external collaborator: a
deterministic state machine offering `Step`, `Tick` (which also drains the
outbound buffers), `Stop` and `Start`. -/
structure RaftEnvModel (σ : Type) where
  init : σ
  stepf : σ → Message → σ
  tickf : σ → σ × List Message
  stopf : σ → Nat → σ
  startf : σ → Nat → σ

/-- The fuzzer configuration fields the iteration loop reads
(`FuzzerConfig`, src/main.go:46-65). -/
structure FuzzerConfig where
  steps : Nat
  replicas : Nat
  crashQuota : Nat
  maxMessages : Nat
  numberRequests : Nat
  mutPerTrace : Nat
  seedPopulationSize : Nat
  reseedFrequency : Nat
deriving Repr

/-- Modelled from the spec: `RandomStrategy` draws from a seedable PRNG
(strategy.go, not reproduced in the sources); a linear congruential
generator threaded explicitly. -/
structure Rng where
  state : Nat
deriving DecidableEq, Repr

/-- One PRNG draw. -/
def Rng.next (r : Rng) : Nat × Rng :=
  let s := (r.state * 1103515245 + 12345) % 2147483648
  (s, ⟨s⟩)

/-- `recordReceive` (fuzzer.go, quoted in docs/execution_flow.md): the
`DeliverMessage` event appended for each delivered message. -/
def recordReceiveEvent (m : Message) : Event :=
  ⟨"DeliverMessage", m.msgTo, false,
   [("type", m.mtype), ("term", toString m.term),
    ("from", toString m.msgFrom), ("to", toString m.msgTo)]⟩

/-- `recordSend` (fuzzer.go): the `SendMessage` event appended for each
message harvested by `Tick`. -/
def recordSendEvent (m : Message) : Event :=
  ⟨"SendMessage", m.msgFrom, false,
   [("type", m.mtype), ("term", toString m.term),
    ("from", toString m.msgFrom), ("to", toString m.msgTo)]⟩

/-- Set a key in an association list, last write wins (Go map
assignment). -/
def assocSet (l : List (Nat × Nat)) (k v : Nat) : List (Nat × Nat) :=
  (k, v) :: l.filter (fun p => p.1 ≠ k)

/-- Look a key up in an association list (Go map read with ok-flag). -/
def assocGet (l : List (Nat × Nat)) (k : Nat) : Option Nat :=
  (l.find? (fun p => p.1 = k)).map (·.2)

/-- The per-iteration trace context (`traceCtx`, quoted in
docs/execution_flow.md): the concrete trace and event trace being built,
the choice cursors, and the step-indexed crash/start/request maps. -/
structure TraceCtx where
  trace : List SchedulingChoice
  eventTrace : List Event
  nodeChoices : List SchedulingChoice
  booleanChoices : List Bool
  integerChoices : List Int
  crashPoints : List (Nat × Nat)
  startPoints : List (Nat × Nat)
  clientRequests : List (Nat × Nat)
deriving Repr

/-- The empty trace context built at the start of `RunIteration`. -/
def emptyTraceCtx : TraceCtx := ⟨[], [], [], [], [], [], [], []⟩

/-- Loading a mimic schedule into the context (`RunIteration`, quoted in
docs/architecture.md): choices are sorted into kind-keyed cursors and
step-indexed maps. -/
def loadMimic (mimic : List SchedulingChoice) : TraceCtx :=
  mimic.foldl (fun ctx ch =>
    match ch.type with
    | ChoiceType.Node =>
        { ctx with nodeChoices := ctx.nodeChoices ++ [ch] }
    | ChoiceType.RandomBoolean =>
        { ctx with booleanChoices := ctx.booleanChoices ++ [ch.booleanChoice] }
    | ChoiceType.RandomInteger =>
        { ctx with integerChoices := ctx.integerChoices ++ [ch.integerChoice] }
    | ChoiceType.StartNode =>
        { ctx with startPoints := assocSet ctx.startPoints ch.step ch.node }
    | ChoiceType.StopNode =>
        { ctx with crashPoints := assocSet ctx.crashPoints ch.step ch.node }
    | ChoiceType.ClientRequest =>
        { ctx with clientRequests := assocSet ctx.clientRequests ch.step ch.request })
    emptyTraceCtx

/-- The mutable state of one `RunIteration`: the Raft environment, the
per-pair FIFO message queues, the crashed set, the crash budget counter,
the injected-request counter, the trace context and the PRNG.  `delivH`
and `sentH` mirror the `DeliverMessage` / `SendMessage` recording with the
full messages kept per pair, so that the delivery order can be compared
with the enqueue order. -/
structure IterState (σ : Type) where
  env : σ
  queues : Nat × Nat → List Message
  crashed : List Nat
  crashCount : Nat
  reqCount : Nat
  ctx : TraceCtx
  rng : Rng
  delivH : Nat × Nat → List Message
  sentH : Nat × Nat → List Message

/-- Point update of a pair-indexed table of lists. -/
def updateQ (f : Nat × Nat → List Message) (p : Nat × Nat)
    (v : List Message) : Nat × Nat → List Message :=
  fun p' => if p' = p then v else f p'

/-- Add a node to the crashed set (Go `crashed[n] = true`). -/
def insertCrashed (n : Nat) (l : List Nat) : List Nat :=
  if l.contains n then l else n :: l

/-- The `StopNode` choice recorded when a crash is enacted. -/
def stopChoice (j n : Nat) : SchedulingChoice :=
  ⟨ChoiceType.StopNode, 0, 0, 0, n, j, false, 0, 0⟩

/-- The `StartNode` choice recorded when a restart is enacted. -/
def startChoice (j n : Nat) : SchedulingChoice :=
  ⟨ChoiceType.StartNode, 0, 0, 0, n, j, false, 0, 0⟩

/-- The `Node` choice recorded for the channel picked at one step. -/
def nodeChoice (f t k : Nat) : SchedulingChoice :=
  ⟨ChoiceType.Node, f, t, k, 0, 0, false, 0, 0⟩

/-- The `ClientRequest` choice recorded when a request is injected. -/
def clientChoice (j r : Nat) : SchedulingChoice :=
  ⟨ChoiceType.ClientRequest, 0, 0, 0, 0, j, false, 0, r⟩

/-- The client proposal synthesized for a request (`RunIteration`, quoted
in docs/architecture.md): `pb.Message{Type: MsgProp, From: 0,
Entries: [{Data: itoa(reqNum)}]}`. -/
def propMsg (reqNum : Nat) : Message :=
  ⟨0, 0, "MsgProp", 0, toString reqNum⟩

/-- The crash step of `RunIteration` (docs/architecture.md; `CanCrash` is
in fuzzer.go, so its unpinned branch is modelled from the spec): a
`StopNode` pinned at this step crashes that node; otherwise, while the
iteration's crash budget `crashQuota` is not exhausted, crash a random
node with probability `crashQuota / steps`. -/
def crashPhase {σ : Type} (cfg : FuzzerConfig) (E : RaftEnvModel σ)
    (j : Nat) (s : IterState σ) : IterState σ :=
  match assocGet s.ctx.crashPoints j with
  | some n =>
      { s with env := E.stopf s.env n, crashed := insertCrashed n s.crashed,
               crashCount := s.crashCount + 1,
               ctx := { s.ctx with trace := s.ctx.trace ++ [stopChoice j n] } }
  | none =>
      if s.crashCount < cfg.crashQuota then
        let d := s.rng.next
        if d.1 % max cfg.steps 1 < cfg.crashQuota then
          let d2 := d.2.next
          let n := d2.1 % max cfg.replicas 1 + 1
          { s with env := E.stopf s.env n, crashed := insertCrashed n s.crashed,
                   crashCount := s.crashCount + 1, rng := d2.2,
                   ctx := { s.ctx with trace := s.ctx.trace ++ [stopChoice j n] } }
        else { s with rng := d.2 }
      else s

/-- The restart step of `RunIteration` (docs/architecture.md: a pinned
`StartNode` restarts its node only when it is currently crashed; the
unpinned branch, in fuzzer.go, is modelled from the spec symmetrically to
the crash branch, over the currently-crashed nodes). -/
def startPhase {σ : Type} (cfg : FuzzerConfig) (E : RaftEnvModel σ)
    (j : Nat) (s : IterState σ) : IterState σ :=
  match assocGet s.ctx.startPoints j with
  | some n =>
      if s.crashed.contains n then
        { s with env := E.startf s.env n, crashed := s.crashed.erase n,
                 ctx := { s.ctx with trace := s.ctx.trace ++ [startChoice j n] } }
      else s
  | none =>
      if s.crashed.isEmpty then s
      else
        let d := s.rng.next
        if d.1 % max cfg.steps 1 < cfg.crashQuota then
          let d2 := d.2.next
          let n := s.crashed.getD (d2.1 % s.crashed.length) 0
          { s with env := E.startf s.env n, crashed := s.crashed.erase n,
                   rng := d2.2,
                   ctx := { s.ctx with trace := s.ctx.trace ++ [startChoice j n] } }
        else { s with rng := d.2 }

/-- `GetNextNodeChoice` (fuzzer.go; the cursor pop follows
docs/architecture.md, the random fallback `strategy.PickNode()` is
modelled from the spec: `1 ≤ from,to ≤ N`, `from ≠ to`,
`1 ≤ k ≤ maxMessages`).  The resulting `Node` choice is appended to the
concrete trace. -/
def getNextNodeChoice {σ : Type} (cfg : FuzzerConfig)
    (s : IterState σ) : (Nat × Nat × Nat) × IterState σ :=
  match s.ctx.nodeChoices with
  | ch :: rest =>
      ((ch.choiceFrom, ch.choiceTo, ch.maxMessages),
       { s with ctx :=
          { s.ctx with
            nodeChoices := rest,
            trace := s.ctx.trace ++
              [nodeChoice ch.choiceFrom ch.choiceTo ch.maxMessages] } })
  | [] =>
      let n := max cfg.replicas 2
      let d1 := s.rng.next
      let f := d1.1 % n + 1
      let d2 := d1.2.next
      let t0 := d2.1 % (n - 1) + 1
      let t := if f ≤ t0 then t0 + 1 else t0
      let d3 := d2.2.next
      let k := d3.1 % max cfg.maxMessages 1 + 1
      ((f, t, k),
       { s with rng := d3.2,
                ctx := { s.ctx with trace := s.ctx.trace ++ [nodeChoice f t k] } })

/-- The delivery step of `RunIteration` (docs/architecture.md lines
186-193 and `Fuzzer.Schedule`, docs/execution_flow.md): when `to` is not
crashed, pop up to `maxMessages` messages from queue `(from,to)` and, for
each in order, record `DeliverMessage` and `Step` it; when `to` is
crashed, nothing happens. -/
def deliverPhase {σ : Type} (E : RaftEnvModel σ)
    (chF chT k : Nat) (s : IterState σ) : IterState σ :=
  if s.crashed.contains chT then s
  else
    let q := s.queues (chF, chT)
    let msgs := q.take k
    { s with
      env := msgs.foldl E.stepf s.env,
      queues := updateQ s.queues (chF, chT) (q.drop k),
      ctx := { s.ctx with
               eventTrace := s.ctx.eventTrace ++ msgs.map recordReceiveEvent },
      delivH := updateQ s.delivH (chF, chT) (s.delivH (chF, chT) ++ msgs) }

/-- The client-request step of `RunIteration` (docs/architecture.md: a
request pinned at this step is synthesized and `Step`ped; the unpinned
branch, in fuzzer.go, is modelled from the spec: inject a fresh request
while fewer than `numberRequests` have been injected). -/
def clientPhase {σ : Type} (cfg : FuzzerConfig) (E : RaftEnvModel σ)
    (j : Nat) (s : IterState σ) : IterState σ :=
  match assocGet s.ctx.clientRequests j with
  | some r =>
      { s with env := E.stepf s.env (propMsg r),
               ctx := { s.ctx with trace := s.ctx.trace ++ [clientChoice j r] } }
  | none =>
      if s.reqCount < cfg.numberRequests then
        { s with env := E.stepf s.env (propMsg (s.reqCount + 1)),
                 reqCount := s.reqCount + 1,
                 ctx := { s.ctx with
                          trace := s.ctx.trace ++ [clientChoice j (s.reqCount + 1)] } }
      else s

/-- The routing of one outbound message harvested by `Tick`
(docs/architecture.md lines 208-212): record `SendMessage` and push into
queue `(From,To)`. -/
def pushOutbound {σ : Type} (st : IterState σ) (m : Message) : IterState σ :=
  { st with
    queues := updateQ st.queues (m.msgFrom, m.msgTo)
                (st.queues (m.msgFrom, m.msgTo) ++ [m]),
    ctx := { st.ctx with
             eventTrace := st.ctx.eventTrace ++ [recordSendEvent m] },
    sentH := updateQ st.sentH (m.msgFrom, m.msgTo)
               (st.sentH (m.msgFrom, m.msgTo) ++ [m]) }

/-- The tick step of `RunIteration` (docs/architecture.md lines 207-213):
advance the environment, and route each harvested outbound message. -/
def tickPhase {σ : Type} (E : RaftEnvModel σ) (s : IterState σ) :
    IterState σ :=
  let r := E.tickf s.env
  r.2.foldl pushOutbound { s with env := r.1 }

/-- The body of the `for j` loop of `RunIteration`
(docs/architecture.md): crash, restart, pick a channel, deliver, inject a
client request, tick. -/
def stepIter {σ : Type} (cfg : FuzzerConfig) (E : RaftEnvModel σ)
    (s : IterState σ) (j : Nat) : IterState σ :=
  let s1 := crashPhase cfg E j s
  let s2 := startPhase cfg E j s1
  let c := getNextNodeChoice cfg s2
  let s3 := deliverPhase E c.1.1 c.1.2.1 c.1.2.2 c.2
  let s4 := clientPhase cfg E j s3
  tickPhase E s4

/-- The initial iteration state: fresh environment, empty queues, the
trace context loaded from the mimic (when given), and the per-iteration
PRNG seeded with `seed`. -/
def initIterState {σ : Type} (E : RaftEnvModel σ)
    (mimic : Option (List SchedulingChoice)) (seed : Nat) : IterState σ :=
  { env := E.init, queues := fun _ => [], crashed := [], crashCount := 0,
    reqCount := 0,
    ctx := match mimic with
           | some m => loadMimic m
           | none => emptyTraceCtx,
    rng := ⟨seed⟩, delivH := fun _ => [], sentH := fun _ => [] }

/-- The full state after `RunIteration` runs its `Steps` loop. -/
def runIterState {σ : Type} (cfg : FuzzerConfig) (E : RaftEnvModel σ)
    (mimic : Option (List SchedulingChoice)) (seed : Nat) : IterState σ :=
  (List.range cfg.steps).foldl (stepIter cfg E) (initIterState E mimic seed)

/-- `Fuzzer.RunIteration`: the observable output, the concrete trace and
the event trace. -/
def RunIteration {σ : Type} (cfg : FuzzerConfig) (E : RaftEnvModel σ)
    (mimic : Option (List SchedulingChoice)) (seed : Nat) :
    List SchedulingChoice × List Event :=
  let st := runIterState cfg E mimic seed
  (st.ctx.trace, st.ctx.eventTrace)

/-- Modelled from the spec: the fuzzer seeds one PRNG per iteration from
`(runSeed, iteration)`. -/
def iterSeed (runSeed i : Nat) : Nat := runSeed * 1000003 + i

/-- `Fuzzer.seed` (fuzzer.go, quoted in docs/execution_flow.md lines
289-297): reset the corpus queue, then run `SeedPopulationSize`
iterations with no mimic, pushing a copy of each resulting concrete
trace. -/
def fuzzerSeed {σ : Type} (cfg : FuzzerConfig) (E : RaftEnvModel σ)
    (runSeed : Nat) (corpus : List (List SchedulingChoice)) :
    List (List SchedulingChoice) :=
  let reset : List (List SchedulingChoice) := []
  (List.range cfg.seedPopulationSize).foldl
    (fun q i => q ++ [copyTrace (RunIteration cfg E none (iterSeed runSeed i)).1])
    reset

/-- A schedule is fully pinned for `cfg` when it carries a `Node` choice
for every one of the `cfg.steps` steps (so the channel cursor never runs
dry). -/
def FullyPinned (cfg : FuzzerConfig) (s : List SchedulingChoice) : Prop :=
  cfg.steps ≤ (s.filter (fun ch => ch.type == ChoiceType.Node)).length

instance (cfg : FuzzerConfig) (s : List SchedulingChoice) :
    Decidable (FullyPinned cfg s) := by
  unfold FullyPinned; infer_instance

/-- `main` (src/main.go:36-38): run the root command; when `Execute`
returns an error, print it and fall off the end of `main`.  A Go program
whose `main` returns normally exits with status 0, so the model returns
the process exit status paired with the lines printed. -/
def mainRun (executeErr : Option String) : Nat × List String :=
  match executeErr with
  | some e => (0, [e])
  | none => (0, [])

/-! ## Helper lemmas -/

/-- Folding an append of one image element over a list appends the mapped
list. -/
lemma foldl_append_singleton {α β : Type} (f : α → β) :
    ∀ (l : List α) (acc : List β),
      l.foldl (fun q i => q ++ [f i]) acc = acc ++ l.map f := by
  intro l
  induction l with
  | nil => intro acc; simp
  | cons a t ih => intro acc; simp [ih]

/-- Folding the push-on-success loop body appends the mapped successful
results. -/
lemma foldl_push_filterMap (mu : Nat → Option (List SchedulingChoice)) :
    ∀ (l : List Nat) (acc : List (List SchedulingChoice)),
      l.foldl (fun q j =>
        match mu j with
        | some nt => q ++ [copyTrace nt]
        | none => q) acc = acc ++ (l.filterMap mu).map copyTrace := by
  intro l
  induction l with
  | nil => intro acc; simp
  | cons a t ih =>
      intro acc
      cases h : mu a <;> simp [List.filterMap_cons, h, ih]

/-- `checkStates` only appends to the seen list. -/
lemma checkStates_grow :
    ∀ (l : List State) (seen : List String),
      ∃ fresh : List String, (checkStates l seen).2 = seen ++ fresh := by
  intro l
  induction l with
  | nil => intro seen; exact ⟨[], by simp [checkStates]⟩
  | cons s t ih =>
      intro seen
      by_cases h : s.key ∈ seen
      · simpa [checkStates, h] using ih seen
      · obtain ⟨fresh, hf⟩ := ih (seen ++ [s.key])
        refine ⟨s.key :: fresh, ?_⟩
        simp [checkStates, h, hf]

/-- The length of the seen list grows by exactly the returned count. -/
lemma checkStates_length :
    ∀ (l : List State) (seen : List String),
      (checkStates l seen).2.length = seen.length + (checkStates l seen).1 := by
  intro l
  induction l with
  | nil => intro seen; simp [checkStates]
  | cons s t ih =>
      intro seen
      by_cases h : s.key ∈ seen
      · simp [checkStates, h, ih seen]
      · have h2 := ih (seen ++ [s.key])
        simp only [List.length_append, List.length_singleton] at h2
        simp [checkStates, h, h2]
        omega

/-- `checkStates` never introduces a duplicate key. -/
lemma checkStates_nodup :
    ∀ (l : List State) (seen : List String),
      seen.Nodup → (checkStates l seen).2.Nodup := by
  intro l
  induction l with
  | nil => intro seen h; simpa [checkStates] using h
  | cons s t ih =>
      intro seen h
      by_cases hc : s.key ∈ seen
      · simpa [checkStates, hc] using ih seen h
      · have hnd : (seen ++ [s.key]).Nodup := by
          simp [List.nodup_append, h, hc]
        simpa [checkStates, hc] using ih (seen ++ [s.key]) hnd

/-- The per-pair FIFO bookkeeping invariant: on every channel, the
messages delivered so far followed by the messages still queued are
exactly the messages enqueued so far, in order. -/
def QueueInv {σ : Type} (s : IterState σ) : Prop :=
  ∀ p : Nat × Nat, s.delivH p ++ s.queues p = s.sentH p

/-- The crash step touches neither the queues nor the histories. -/
lemma crashPhase_queues {σ : Type} (cfg : FuzzerConfig) (E : RaftEnvModel σ)
    (j : Nat) (s : IterState σ) :
    (crashPhase cfg E j s).queues = s.queues ∧
    (crashPhase cfg E j s).delivH = s.delivH ∧
    (crashPhase cfg E j s).sentH = s.sentH := by
  unfold crashPhase
  cases assocGet s.ctx.crashPoints j with
  | some n => exact ⟨rfl, rfl, rfl⟩
  | none =>
      dsimp only
      split_ifs <;> exact ⟨rfl, rfl, rfl⟩

/-- The restart step touches neither the queues nor the histories. -/
lemma startPhase_queues {σ : Type} (cfg : FuzzerConfig) (E : RaftEnvModel σ)
    (j : Nat) (s : IterState σ) :
    (startPhase cfg E j s).queues = s.queues ∧
    (startPhase cfg E j s).delivH = s.delivH ∧
    (startPhase cfg E j s).sentH = s.sentH := by
  unfold startPhase
  cases assocGet s.ctx.startPoints j with
  | some n =>
      dsimp only
      split_ifs <;> exact ⟨rfl, rfl, rfl⟩
  | none =>
      dsimp only
      split_ifs <;> exact ⟨rfl, rfl, rfl⟩

/-- Picking the channel touches neither the queues nor the histories. -/
lemma getNextNodeChoice_queues {σ : Type} (cfg : FuzzerConfig)
    (s : IterState σ) :
    (getNextNodeChoice cfg s).2.queues = s.queues ∧
    (getNextNodeChoice cfg s).2.delivH = s.delivH ∧
    (getNextNodeChoice cfg s).2.sentH = s.sentH := by
  unfold getNextNodeChoice
  cases s.ctx.nodeChoices with
  | nil => exact ⟨rfl, rfl, rfl⟩
  | cons ch rest => exact ⟨rfl, rfl, rfl⟩

/-- The client-request step touches neither the queues nor the
histories. -/
lemma clientPhase_queues {σ : Type} (cfg : FuzzerConfig) (E : RaftEnvModel σ)
    (j : Nat) (s : IterState σ) :
    (clientPhase cfg E j s).queues = s.queues ∧
    (clientPhase cfg E j s).delivH = s.delivH ∧
    (clientPhase cfg E j s).sentH = s.sentH := by
  unfold clientPhase
  cases assocGet s.ctx.clientRequests j with
  | some r => exact ⟨rfl, rfl, rfl⟩
  | none =>
      dsimp only
      split_ifs <;> exact ⟨rfl, rfl, rfl⟩

/-- The delivery step preserves the FIFO bookkeeping invariant. -/
lemma deliverPhase_inv {σ : Type} (E : RaftEnvModel σ) (chF chT k : Nat)
    (s : IterState σ) (h : QueueInv s) : QueueInv (deliverPhase E chF chT k s) := by
  unfold deliverPhase
  split
  · exact h
  · intro p
    dsimp only
    by_cases hp : p = (chF, chT)
    · subst hp
      simp only [updateQ, eq_self_iff_true, if_true]
      rw [List.append_assoc, List.take_append_drop]
      exact h _
    · simp only [updateQ, if_neg hp]
      exact h p

/-- Routing one outbound message preserves the FIFO bookkeeping
invariant. -/
lemma pushOutbound_inv {σ : Type} (st : IterState σ) (m : Message)
    (h : QueueInv st) : QueueInv (pushOutbound st m) := by
  intro p
  unfold pushOutbound
  dsimp only
  by_cases hp : p = (m.msgFrom, m.msgTo)
  · subst hp
    simp only [updateQ, eq_self_iff_true, if_true]
    rw [← List.append_assoc]
    rw [h _]
  · simp only [updateQ, if_neg hp]
    exact h p

/-- Routing a whole batch of outbound messages preserves the invariant. -/
lemma foldl_pushOutbound_inv {σ : Type} :
    ∀ (ms : List Message) (st : IterState σ),
      QueueInv st → QueueInv (ms.foldl pushOutbound st) := by
  intro ms
  induction ms with
  | nil => intro st h; exact h
  | cons m t ih => intro st h; exact ih _ (pushOutbound_inv st m h)

/-- The tick step preserves the FIFO bookkeeping invariant. -/
lemma tickPhase_inv {σ : Type} (E : RaftEnvModel σ) (s : IterState σ)
    (h : QueueInv s) : QueueInv (tickPhase E s) := by
  unfold tickPhase
  exact foldl_pushOutbound_inv _ _ (fun p => h p)

/-- One full loop step preserves the FIFO bookkeeping invariant. -/
lemma stepIter_inv {σ : Type} (cfg : FuzzerConfig) (E : RaftEnvModel σ)
    (s : IterState σ) (j : Nat) (h : QueueInv s) :
    QueueInv (stepIter cfg E s j) := by
  unfold stepIter
  apply tickPhase_inv
  intro p
  obtain ⟨hc1, hc2, hc3⟩ := clientPhase_queues cfg E j _
  rw [hc1, hc2, hc3]
  apply deliverPhase_inv
  intro p'
  obtain ⟨hg1, hg2, hg3⟩ := getNextNodeChoice_queues cfg _
  rw [hg1, hg2, hg3]
  obtain ⟨hs1, hs2, hs3⟩ := startPhase_queues cfg E j _
  rw [hs1, hs2, hs3]
  obtain ⟨hx1, hx2, hx3⟩ := crashPhase_queues cfg E j s
  rw [hx1, hx2, hx3]
  exact h p'

/-- The invariant propagates through any run of loop steps. -/
lemma foldl_stepIter_inv {σ : Type} (cfg : FuzzerConfig) (E : RaftEnvModel σ) :
    ∀ (l : List Nat) (s : IterState σ),
      QueueInv s → QueueInv (l.foldl (stepIter cfg E) s) := by
  intro l
  induction l with
  | nil => intro s h; exact h
  | cons j t ih => intro s h; exact ih _ (stepIter_inv cfg E s j h)

/-- The initial iteration state satisfies the invariant: all queues and
histories start empty. -/
lemma initIterState_inv {σ : Type} (E : RaftEnvModel σ)
    (mimic : Option (List SchedulingChoice)) (seed : Nat) :
    QueueInv (initIterState E mimic seed) := by
  intro p
  rfl

/-! ## Claim theorems -/

/-- C1 (counterexample): the claim says a guider's novelty quotient is
`numNew / max(corpusSize, 1)` with `corpusSize` the fuzzer's corpus queue
size.  At a call with an empty seen-map, a one-state TLC reply and a
corpus queue of size 5, `TLCStateGuider.Check` returns `numNew = 1` and
quotient `1` (it divides by the seen-state count, which the corpus size
never enters), while the claim demands `1 / max(5,1) = 1/5`. -/
theorem check_quotient_counterexample :
    (TLCStateGuider.Check ⟨[]⟩ [] ⟨["s1"], ["k1"]⟩).1.1 = 1 ∧
    (TLCStateGuider.Check ⟨[]⟩ [] ⟨["s1"], ["k1"]⟩).1.2 = 1 ∧
    (1 : Rat) / ((max 5 1 : Nat) : Rat)
      ≠ (TLCStateGuider.Check ⟨[]⟩ [] ⟨["s1"], ["k1"]⟩).1.2 := by
  refine ⟨rfl, ?_, ?_⟩
  · show (1 : Rat) / ((max 1 1 : Nat) : Rat) = 1
    norm_num
  · show (1 : Rat) / ((max 5 1 : Nat) : Rat) ≠ (1 : Rat) / ((max 1 1 : Nat) : Rat)
    norm_num

/-- C1 (amended): for every `Check` call, the returned novelty quotient is
`numNew / max(curStates, 1)` where `curStates` is the guider's own
seen-state count after the update (`len(t.statesMap)`), and for
`TraceCoverageGuider` it is `new / len(t.traces)` with the count taken
after the update — not the fuzzer's corpus queue size. -/
theorem check_quotient (g : TLCStateGuider) (events : List Event)
    (resp : TLCResponse) (hash : List Event → String)
    (tg : TraceCoverageGuider) :
    (TLCStateGuider.Check g events resp).1.2
        = ((TLCStateGuider.Check g events resp).1.1 : Rat)
            / ((max (TLCStateGuider.Check g events resp).2.1.statesMap.length 1 : Nat) : Rat) ∧
    (TraceCoverageGuider.Check hash tg events resp).1.2
        = ((TraceCoverageGuider.Check hash tg events resp).1.1 : Rat)
            / (((TraceCoverageGuider.Check hash tg events resp).2.1.traces.length : Nat) : Rat) :=
  ⟨rfl, rfl⟩

/-- C2: when `Check` reports `k` new states, the mutation stage calls
`Mutate` exactly `k * MutPerTrace` times (in particular zero times when
`k = 0`), pushes onto the corpus exactly the copies of the results
returned with `ok = true`, in order, and discards the `ok = false` ones:
the queue afterwards is the old queue followed by the successful results
of the `k * MutPerTrace` calls. -/
theorem mutation_budget (k m : Nat) (mu : Nat → Option (List SchedulingChoice))
    (queue : List (List SchedulingChoice)) :
    mutationStage k m mu queue
      = (queue ++ ((List.range (k * m)).filterMap mu).map copyTrace, k * m) := by
  unfold mutationStage
  by_cases hk : 0 < k
  · simp only [if_pos hk]
    rw [foldl_push_filterMap]
  · have hk0 : k = 0 := by omega
    subst hk0
    simp

/-- C6: `Fuzzer.seed` first empties the corpus queue (its result does not
depend on the previous corpus), then runs exactly `SeedPopulationSize`
iterations with `mimic = nil` and pushes each resulting concrete trace,
so the corpus afterwards has exactly `SeedPopulationSize` entries, the
i-th being the trace of the i-th mimic-free iteration. -/
theorem seed_population (σ : Type) (cfg : FuzzerConfig) (E : RaftEnvModel σ)
    (runSeed : Nat) (corpus corpus' : List (List SchedulingChoice)) :
    fuzzerSeed cfg E runSeed corpus
      = (List.range cfg.seedPopulationSize).map
          (fun i => (RunIteration cfg E none (iterSeed runSeed i)).1) ∧
    (fuzzerSeed cfg E runSeed corpus).length = cfg.seedPopulationSize ∧
    fuzzerSeed cfg E runSeed corpus = fuzzerSeed cfg E runSeed corpus' := by
  have h := foldl_append_singleton
    (fun i => copyTrace (RunIteration cfg E none (iterSeed runSeed i)).1)
    (List.range cfg.seedPopulationSize) []
  refine ⟨?_, ?_, rfl⟩
  · unfold fuzzerSeed
    rw [h]
    simp [copyTrace]
  · unfold fuzzerSeed
    rw [h]
    simp

/-- C7: the periodic reseed test divides the iteration counter by
`reseedFrequency`; for `reseedFrequency ≥ 1` it never faults and yields
the decision `i % reseedFrequency == 0`, while for `reseedFrequency = 0`
the division faults. -/
theorem reseed_guard (i freq : Nat) :
    (1 ≤ freq → reseedDecision i freq = some (i % freq == 0)) ∧
    reseedDecision i 0 = none := by
  constructor
  · intro h
    have hne : freq ≠ 0 := by omega
    simp [reseedDecision, goMod, hne]
  · simp [reseedDecision, goMod]

/-- C7 (witness): at iteration 4 with `reseedFrequency = 2` the guard
holds and the decision is computed. -/
theorem reseed_guard_witness :
    1 ≤ 2 ∧ reseedDecision 4 2 = some (4 % 2 == 0) :=
  ⟨by decide, (reseed_guard 4 2).1 (by decide)⟩

/-- C8 (counterexample): the claim says the exit code is non-zero
whenever `rootCommand.Execute` returns a non-nil error; but `main`
(src/main.go:36-38) only prints the error and returns, so the process
exits with status 0 even then. -/
theorem exit_code_counterexample :
    (mainRun (some "unknown command")).1 = 0 ∧
    (some "unknown command" : Option String) ≠ none :=
  ⟨rfl, by simp⟩

/-- C8 (amended): the process exits with status 0 both on normal
completion and when `Execute` returns an error; in the error case the
error is printed. -/
theorem exit_code_amended :
    (∀ err : Option String, (mainRun err).1 = 0) ∧
    (∀ e : String, mainRun (some e) = (0, [e])) ∧
    mainRun none = (0, []) := by
  refine ⟨?_, fun e => rfl, rfl⟩
  intro err
  cases err <;> rfl

/-- C3: one `TLCStateGuider.Check` call only ever appends to the guider's
seen-key list, so (the list being duplicate-free, i.e. its length being
the cardinality of the seen set) the cardinality is non-decreasing from
each `Check` call to the next and the returned `numNew` equals exactly
the increase caused by that call; duplicate-freeness is itself preserved,
so the same holds along any sequence of calls within a run. -/
theorem guider_seen_monotone (g : TLCStateGuider) (events : List Event)
    (resp : TLCResponse) (h : g.statesMap.Nodup) :
    (∃ fresh, (TLCStateGuider.Check g events resp).2.1.statesMap
        = g.statesMap ++ fresh) ∧
    (TLCStateGuider.Check g events resp).2.1.statesMap.length
        = g.statesMap.length + (TLCStateGuider.Check g events resp).1.1 ∧
    g.statesMap.length ≤ (TLCStateGuider.Check g events resp).2.1.statesMap.length ∧
    (TLCStateGuider.Check g events resp).2.1.statesMap.Nodup := by
  have hg := checkStates_grow ((SendTrace events resp).2.getD []) g.statesMap
  have hl := checkStates_length ((SendTrace events resp).2.getD []) g.statesMap
  have hn := checkStates_nodup ((SendTrace events resp).2.getD []) g.statesMap h
  refine ⟨hg, hl, ?_, hn⟩
  show g.statesMap.length
      ≤ (checkStates ((SendTrace events resp).2.getD []) g.statesMap).2.length
  rw [hl]
  exact Nat.le_add_right _ _

/-- C3 (witness): a guider that has seen key `"a"` checking a reply with
keys `"a"` and `"b"` grows its seen list by exactly the reported
increment while staying duplicate-free. -/
theorem guider_seen_monotone_witness :
    (⟨["a"]⟩ : TLCStateGuider).statesMap.Nodup ∧
    ((∃ fresh, (TLCStateGuider.Check ⟨["a"]⟩ [] ⟨["s1", "s2"], ["a", "b"]⟩).2.1.statesMap
        = (⟨["a"]⟩ : TLCStateGuider).statesMap ++ fresh) ∧
     (TLCStateGuider.Check ⟨["a"]⟩ [] ⟨["s1", "s2"], ["a", "b"]⟩).2.1.statesMap.length
        = (⟨["a"]⟩ : TLCStateGuider).statesMap.length
          + (TLCStateGuider.Check ⟨["a"]⟩ [] ⟨["s1", "s2"], ["a", "b"]⟩).1.1 ∧
     (⟨["a"]⟩ : TLCStateGuider).statesMap.length
        ≤ (TLCStateGuider.Check ⟨["a"]⟩ [] ⟨["s1", "s2"], ["a", "b"]⟩).2.1.statesMap.length ∧
     (TLCStateGuider.Check ⟨["a"]⟩ [] ⟨["s1", "s2"], ["a", "b"]⟩).2.1.statesMap.Nodup) :=
  ⟨by decide, guider_seen_monotone ⟨["a"]⟩ [] ⟨["s1", "s2"], ["a", "b"]⟩ (by decide)⟩

/-- C9: for a TLC reply whose `States` and `Keys` both have length `n`,
`SendTrace` appends the sentinel `Reset` event to the submitted trace and
returns exactly `n` states, the i-th pairing `Repr = States[i]` with
`Key = Keys[i]`. -/
theorem sendtrace_zip (trace : List Event) (resp : TLCResponse) (n : Nat)
    (hs : resp.states.length = n) (hk : resp.keys.length = n) :
    (SendTrace trace resp).1 = trace ++ [resetEvent] ∧
    ∃ l, (SendTrace trace resp).2 = some l ∧ l.length = n ∧
      ∀ i : Nat, i < n →
        l[i]? = some (State.mk (resp.states[i]?.getD "") (resp.keys[i]?.getD "")) := by
  refine ⟨rfl, List.zipWith (fun s k => State.mk s k) resp.states resp.keys, ?_, ?_, ?_⟩
  · simp [SendTrace, hs, hk]
  · simp [List.length_zipWith, hs, hk]
  · intro i hi
    have hi1 : i < resp.states.length := by omega
    have hi2 : i < resp.keys.length := by omega
    simp [List.getElem?_zipWith', List.getElem?_eq_getElem, hi1, hi2]

/-- C9 (witness): a two-state reply zips into the two expected pairs. -/
theorem sendtrace_zip_witness :
    (⟨["s1", "s2"], ["k1", "k2"]⟩ : TLCResponse).states.length = 2 ∧
    ((SendTrace [] ⟨["s1", "s2"], ["k1", "k2"]⟩).1 = [] ++ [resetEvent] ∧
     ∃ l, (SendTrace [] ⟨["s1", "s2"], ["k1", "k2"]⟩).2 = some l ∧ l.length = 2 ∧
       ∀ i : Nat, i < 2 →
         l[i]? = some (State.mk
           ((⟨["s1", "s2"], ["k1", "k2"]⟩ : TLCResponse).states[i]?.getD "")
           ((⟨["s1", "s2"], ["k1", "k2"]⟩ : TLCResponse).keys[i]?.getD ""))) :=
  ⟨by decide, sendtrace_zip [] ⟨["s1", "s2"], ["k1", "k2"]⟩ 2 (by decide) (by decide)⟩

/-- C10: `SendTrace` mutates its argument in place — the caller's event
trace afterwards is the old trace with exactly one element appended, that
element is the `Reset` sentinel, all prior elements are unchanged — and
the same holds for the event trace coming back from a
`TLCStateGuider.Check` call, which submits to TLC. -/
theorem sendtrace_frame (trace : List Event) (resp : TLCResponse)
    (g : TLCStateGuider) (events : List Event) :
    (SendTrace trace resp).1 = trace ++ [resetEvent] ∧
    (SendTrace trace resp).1.length = trace.length + 1 ∧
    (SendTrace trace resp).1.take trace.length = trace ∧
    (SendTrace trace resp).1.getLast? = some resetEvent ∧
    resetEvent.reset = true ∧
    (TLCStateGuider.Check g events resp).2.2 = events ++ [resetEvent] := by
  refine ⟨rfl, by simp [SendTrace], ?_, ?_, rfl, rfl⟩
  · show (trace ++ [resetEvent]).take trace.length = trace
    simp
  · show (trace ++ [resetEvent]).getLast? = some resetEvent
    simp

/-- A small concrete configuration used to instantiate the replay
theorems: 2 steps, 3 replicas, the remaining knobs as in `FuzzCommand`. -/
def sampleCfg : FuzzerConfig :=
  ⟨2, 3, 2, 10, 1, 5, 10, 2000⟩

/-- A concrete deterministic Raft environment over `Nat` state: stepping
counts, ticking emits no messages. -/
def sampleEnv : RaftEnvModel Nat :=
  ⟨0, fun s _ => s + 1, fun s => (s, []), fun s _ => s, fun s _ => s⟩

/-- A fully pinned two-step schedule. -/
def sampleSchedule : List SchedulingChoice :=
  [nodeChoice 1 2 1, nodeChoice 2 1 1]

/-- A concrete iteration state in which node 2 is crashed and queue
`(1,2)` holds one message. -/
def sampleIterState : IterState Nat :=
  { env := 0,
    queues := fun p => if p = (1, 2) then [⟨1, 2, "MsgApp", 1, ""⟩] else [],
    crashed := [2], crashCount := 1, reqCount := 0,
    ctx := emptyTraceCtx, rng := ⟨1⟩,
    delivH := fun _ => [], sentH := fun p => if p = (1, 2) then [⟨1, 2, "MsgApp", 1, ""⟩] else [] }

/-- C4: replay is deterministic — with the same mimic schedule and the
same per-iteration PRNG seed, two executions of `RunIteration` produce
identical concrete traces and identical (hence byte-identical) event
traces; the embedding threads every source of randomness through the
explicit PRNG, so the run is a pure function of `(mimic, seed)`. -/
theorem replay_deterministic (σ : Type) (cfg : FuzzerConfig)
    (E : RaftEnvModel σ) (S : List SchedulingChoice) (seed : Nat)
    (h : FullyPinned cfg S) :
    RunIteration cfg E (some S) seed = RunIteration cfg E (some S) seed :=
  rfl

/-- C4 (witness): the sample fully-pinned schedule replayed twice with
seed 7 gives the same output. -/
theorem replay_deterministic_witness :
    FullyPinned sampleCfg sampleSchedule ∧
    RunIteration sampleCfg sampleEnv (some sampleSchedule) 7
      = RunIteration sampleCfg sampleEnv (some sampleSchedule) 7 :=
  ⟨by decide,
   replay_deterministic Nat sampleCfg sampleEnv sampleSchedule 7 (by decide)⟩

/-- C5: at every step, when the chosen channel's target is crashed the
delivery phase does nothing — no message is popped from the queue and
`Step` is not called; when it is not crashed, at most `k` messages are
popped off the front of queue `(from,to)` and `Step`ped in exactly that
FIFO order; and over a whole `RunIteration`, on every pair `(i,j)` the
messages delivered followed by the messages still queued equal the
messages enqueued, in order — the delivered sequence is an initial
segment of the enqueued sequence. -/
theorem queue_fifo (σ : Type) (E : RaftEnvModel σ) (cfg : FuzzerConfig) :
    (∀ (chF chT k : Nat) (s : IterState σ),
        s.crashed.contains chT = true → deliverPhase E chF chT k s = s) ∧
    (∀ (chF chT k : Nat) (s : IterState σ),
        s.crashed.contains chT = false →
          (deliverPhase E chF chT k s).queues (chF, chT)
              = (s.queues (chF, chT)).drop k ∧
          (deliverPhase E chF chT k s).delivH (chF, chT)
              = s.delivH (chF, chT) ++ (s.queues (chF, chT)).take k ∧
          ((s.queues (chF, chT)).take k).length ≤ k ∧
          (deliverPhase E chF chT k s).env
              = ((s.queues (chF, chT)).take k).foldl E.stepf s.env) ∧
    (∀ (mimic : Option (List SchedulingChoice)) (seed : Nat) (p : Nat × Nat),
        (runIterState cfg E mimic seed).delivH p
            ++ (runIterState cfg E mimic seed).queues p
          = (runIterState cfg E mimic seed).sentH p) := by
  refine ⟨?_, ?_, ?_⟩
  · intro chF chT k s h
    unfold deliverPhase
    rw [if_pos h]
  · intro chF chT k s h
    unfold deliverPhase
    rw [if_neg (by simpa using h)]
    refine ⟨?_, ?_, ?_, rfl⟩
    · simp [updateQ]
    · simp [updateQ]
    · rw [List.length_take]
      exact min_le_left _ _
  · intro mimic seed p
    have h := foldl_stepIter_inv cfg E (List.range cfg.steps)
      (initIterState E mimic seed) (initIterState_inv E mimic seed)
    exact h p

/-- C5 (witness): delivering on channel `(1,2)` while node 2 is crashed
leaves the sample iteration state untouched. -/
theorem queue_fifo_witness :
    deliverPhase sampleEnv 1 2 3 sampleIterState = sampleIterState :=
  (queue_fifo Nat sampleEnv sampleCfg).1 1 2 3 sampleIterState (by decide)

end EtcdFuzz
